import Mathlib

/-!
Verification development for the real-time log viewer client (`src/App.jsx`).

The embedding models the `ws.onmessage` normalization pipeline, the log
store with its line-number counter, the `clearLogs` action, the derived
`filteredLogs` / `logLevels` views, and the WebSocket connection lifecycle
(`connectWebSocket`, the `onopen`/`onerror`/`onclose` handlers, the
reconnect timer and the effect-cleanup teardown) as an explicit
event-driven state machine.

Conventions of the embedding:
* Parsed JSON values are modelled by `Json` (numbers as `Int`; no claim
  exercises fractional numbers).  A missing object property is modelled by
  `Option.none` ("undefined" in the host language), which is distinct from
  an explicit JSON `null` value.
* A JavaScript exception thrown inside the `try` block of the message
  handler is caught by its `catch`; the embedding returns the states such
  an execution observably reaches (store unchanged, counter possibly
  advanced mid-batch).
* The opaque `id` field of a record (a wall-clock-based unique token that
  is never read by any logic under specification) is omitted from the
  record model.
* `toUpperCase` is modelled character-wise (ASCII), matching its behavior
  on every string the claims mention.
-/

namespace LogViewer

/-- A parsed JSON value (`JSON.parse` result). -/
inductive Json where
  | null : Json
  | bool : Bool → Json
  | num : Int → Json
  | str : String → Json
  | arr : List Json → Json
  | obj : List (String × Json) → Json

/-- Property lookup in an object's field list (parsed JSON objects have
distinct keys). -/
def lookupField : List (String × Json) → String → Option Json
  | [], _ => none
  | (k, v) :: rest, key => if k = key then some v else lookupField rest key

/-- JavaScript property access `v.k`: `none` models `undefined`.
Access on `Json.null` never reaches this function (it throws; the callers
handle that case explicitly). -/
def jsGet (v : Json) (k : String) : Option Json :=
  match v with
  | .obj fields => lookupField fields k
  | _ => none

/-- JavaScript truthiness of a defined value. -/
def truthy : Json → Bool
  | .null => false
  | .bool b => b
  | .num n => n != 0
  | .str s => s != ""
  | .arr _ => true
  | .obj _ => true

/-- JavaScript truthiness of a possibly-undefined value. -/
def truthyOpt : Option Json → Bool
  | none => false
  | some v => truthy v

/-- JavaScript `a || b` for a possibly-undefined `a`. -/
def jsOr (a : Option Json) (b : Json) : Json :=
  match a with
  | some v => if truthy v then v else b
  | none => b

/-- JavaScript `a !== undefined ? a : b`. -/
def definedOr (a : Option Json) (b : Json) : Json := a.getD b

/-- `data.type === s` for a non-null decoded value. -/
def typeIs (data : Json) (s : String) : Bool :=
  match jsGet data "type" with
  | some (.str t) => t == s
  | _ => false

/-- Character-wise `toUpperCase` (ASCII model of the JavaScript method). -/
def jsToUpper (s : String) : String := ⟨s.data.map Char.toUpper⟩

/-- JavaScript whitespace (ASCII part: space, tab, LF, VT, FF, CR). -/
def isWs (c : Char) : Bool :=
  c = ' ' || c = '\t' || c = '\n' || c = '\r' || c.toNat = 11 || c.toNat = 12

/-- `String.prototype.trim`. -/
def jsTrim (s : String) : String :=
  ⟨(((s.data.dropWhile isWs).reverse).dropWhile isWs).reverse⟩

/-- `s.split('\n')` (empty segments kept, exactly as in JavaScript). -/
def splitLinesAux : List Char → List Char → List String
  | acc, [] => [⟨acc.reverse⟩]
  | acc, c :: cs =>
    if c = '\n' then ⟨acc.reverse⟩ :: splitLinesAux [] cs
    else splitLinesAux (c :: acc) cs

/-- `s.split('\n')`. -/
def splitLines (s : String) : List String := splitLinesAux [] s.data

/-- One hexadecimal digit, lower case. -/
def hexDigit (n : Nat) : String :=
  String.singleton (if n < 10 then Char.ofNat (48 + n) else Char.ofNat (87 + n))

/-- `JSON.stringify` escaping of one string character. -/
def escapeJsonChar (c : Char) : String :=
  if c = '"' then "\\\""
  else if c = '\\' then "\\\\"
  else if c = '\n' then "\\n"
  else if c = '\t' then "\\t"
  else if c = '\r' then "\\r"
  else if c = Char.ofNat 8 then "\\b"
  else if c = Char.ofNat 12 then "\\f"
  else if c.toNat < 32 then "\\u00" ++ hexDigit (c.toNat / 16) ++ hexDigit (c.toNat % 16)
  else String.singleton c

/-- `JSON.stringify` escaping of a whole string. -/
def escapeJsonString (s : String) : String := String.join (s.data.map escapeJsonChar)

mutual

/-- `JSON.stringify` of a parsed value (used by the `type: 'log'` branch to
default a missing `message`). -/
def jsonStringify : Json → String
  | .null => "null"
  | .bool true => "true"
  | .bool false => "false"
  | .num n => toString n
  | .str s => "\"" ++ escapeJsonString s ++ "\""
  | .arr xs => "[" ++ stringifyArr xs ++ "]"
  | .obj fs => "\x7b" ++ stringifyObj fs ++ "\x7d"

/-- Comma-separated serialization of array elements. -/
def stringifyArr : List Json → String
  | [] => ""
  | [x] => jsonStringify x
  | x :: y :: xs => jsonStringify x ++ "," ++ stringifyArr (y :: xs)

/-- Comma-separated serialization of object fields. -/
def stringifyObj : List (String × Json) → String
  | [] => ""
  | [(k, v)] => "\"" ++ escapeJsonString k ++ "\":" ++ jsonStringify v
  | (k, v) :: p :: fs =>
      "\"" ++ escapeJsonString k ++ "\":" ++ jsonStringify v ++ "," ++ stringifyObj (p :: fs)

end

/-- A normalized log record (the `id` field, an opaque unique token never
read by the logic, is omitted). -/
structure LogRecord where
  lineNumber : Nat
  timestamp : Json
  level : Json
  message : Json
  isStructured : Json
  isHistory : Bool

/-- The log store: the `logs` state plus the `logCounterRef` counter. -/
structure StoreState where
  logs : List LogRecord
  counter : Nat

/-- The `historyLogs` list computed by the HISTORY branch from the `data`
payload: an array is taken verbatim; a string is split on newlines, blank
lines dropped, each line pre-shaped; anything else yields the empty list. -/
def historyEntries (now : String) (d : Option Json) : List Json :=
  match d with
  | some (.arr xs) => xs
  | some (.str s) =>
      ((splitLines s).filter (fun l => jsTrim l != "")).map (fun l =>
        Json.obj [("timestamp", .str now), ("level", .str "INFO"),
                  ("message", .str l), ("isStructured", .bool false)])
  | _ => []

/-- The record built for one history entry (`processedHistory` map body). -/
def mkHistoryRecord (now : String) (ln : Nat) (e : Json) : LogRecord :=
  { lineNumber := ln
  , timestamp := jsOr (jsGet e "timestamp") (.str now)
  , level := jsOr (jsGet e "level") (.str "INFO")
  , message := jsOr (jsGet e "message") e
  , isStructured := definedOr (jsGet e "isStructured") (.bool true)
  , isHistory := true }

/-- The `historyLogs.map` of the HISTORY branch, threading the counter.  A
`Json.null` entry throws a `TypeError` at its property access — after the
counter was already incremented for it — aborting the map (`none`). -/
def processHistory (now : String) : Nat → List Json → Option (List LogRecord) × Nat
  | c, [] => (some [], c)
  | c, e :: es =>
    match e with
    | .null => (none, c + 1)
    | _ =>
      let r := mkHistoryRecord now (c + 1) e
      match processHistory now (c + 1) es with
      | (some rs, c2) => (some (r :: rs), c2)
      | (none, c2) => (none, c2)

/-- The record built by the structured branch (`data.timestamp && data.level
&& data.message` all truthy; the `getD .null` defaults are unreachable
under that guard). -/
def mkStructuredRecord (ln : Nat) (data : Json) : LogRecord :=
  { lineNumber := ln
  , timestamp := (jsGet data "timestamp").getD .null
  , level := (jsGet data "level").getD .null
  , message := (jsGet data "message").getD .null
  , isStructured := definedOr (jsGet data "isStructured") (.bool true)
  , isHistory := false }

/-- The record built by the `type: 'log'` branch. -/
def mkTypeLogRecord (now : String) (ln : Nat) (data : Json) : LogRecord :=
  { lineNumber := ln
  , timestamp := jsOr (jsGet data "timestamp") (.str now)
  , level := jsOr (jsGet data "level") (.str "INFO")
  , message := jsOr (jsGet data "message") (.str (jsonStringify data))
  , isStructured := definedOr (jsGet data "isStructured") (.bool true)
  , isHistory := false }

/-- The record built by the fallback branch (`data.message` truthy; the
`getD .null` default is unreachable under that guard). -/
def mkFallbackRecord (now : String) (ln : Nat) (data : Json) : LogRecord :=
  { lineNumber := ln
  , timestamp := jsOr (jsGet data "timestamp") (.str now)
  , level := jsOr (jsGet data "level") (.str "INFO")
  , message := (jsGet data "message").getD .null
  , isStructured := definedOr (jsGet data "isStructured") (.bool true)
  , isHistory := false }

/-- Whether a JSON value is the `null` literal. -/
def Json.isNull : Json → Bool
  | .null => true
  | _ => false

/-- The body of the `try` block of `ws.onmessage` applied to one
successfully decoded frame.  `now` is the value
`new Date().toLocaleTimeString()` would produce during this dispatch.
A `null` frame throws a `TypeError` at `data.type`, caught by the
handler: no state change. -/
def processFrame (now : String) (st : StoreState) (data : Json) : StoreState :=
  if data.isNull then st
  else
    if typeIs data "HISTORY" then
      match processHistory now st.counter (historyEntries now (jsGet data "data")) with
      | (some rs, c) => { logs := rs, counter := c }
      | (none, c) => { logs := st.logs, counter := c }
    else if truthyOpt (jsGet data "timestamp") && truthyOpt (jsGet data "level")
            && truthyOpt (jsGet data "message") then
      { logs := st.logs ++ [mkStructuredRecord (st.counter + 1) data]
      , counter := st.counter + 1 }
    else if typeIs data "log" then
      { logs := st.logs ++ [mkTypeLogRecord now (st.counter + 1) data]
      , counter := st.counter + 1 }
    else if truthyOpt (jsGet data "message") then
      { logs := st.logs ++ [mkFallbackRecord now (st.counter + 1) data]
      , counter := st.counter + 1 }
    else st

/-- `ws.onmessage` on a raw frame: `none` models a frame `JSON.parse`
rejects (the catch only logs: no state change). -/
def processRawFrame (now : String) (st : StoreState) (frame : Option Json) : StoreState :=
  match frame with
  | none => st
  | some data => processFrame now st data

/-- The `clearLogs` click handler: `setLogs([])` and counter reset. -/
def clearLogs (_st : StoreState) : StoreState := { logs := [], counter := 0 }

/-- Sequential processing of raw frames, each with its dispatch time. -/
def processFrames (st : StoreState) : List (String × Option Json) → StoreState
  | [] => st
  | (now, f) :: fs => processFrames (processRawFrame now st f) fs

/-- `log.level?.toUpperCase()`: `some none` is `undefined` (nullish level),
`some (some u)` a string result, `none` a `TypeError` (non-string,
non-nullish level would crash the render). -/
def levelUpper : Json → Option (Option String)
  | .null => some none
  | .str s => some (some (jsToUpper s))
  | _ => none

/-- `logs.filter(log => log.level?.toUpperCase() === filterLevel)`. -/
def filterByLevel (fl : String) : List LogRecord → Option (List LogRecord)
  | [] => some []
  | r :: rs =>
    match levelUpper r.level, filterByLevel fl rs with
    | some u, some rest => some (if u = some fl then r :: rest else rest)
    | _, _ => none

/-- The derived `filteredLogs` view. -/
def filteredLogs (fl : String) (logs : List LogRecord) : Option (List LogRecord) :=
  if fl = "ALL" then some logs else filterByLevel fl logs

/-- `logs.map(log => log.level?.toUpperCase())`. -/
def mapLevelUpper : List LogRecord → Option (List (Option String))
  | [] => some []
  | r :: rs =>
    match levelUpper r.level, mapLevelUpper rs with
    | some u, some rest => some (u :: rest)
    | _, _ => none

/-- `.filter(Boolean)`: drops `undefined` and the empty string. -/
def filterTruthyStr (l : List (Option String)) : List String :=
  l.filterMap (fun u => match u with
    | some s => if s = "" then none else some s
    | none => none)

/-- Insertion-ordered deduplication, carrying the set of already-seen
elements (`new Set` keeps the first occurrence of each element). -/
def dedupFirstAux (seen : List String) : List String → List String
  | [] => []
  | x :: xs =>
    if x ∈ seen then dedupFirstAux seen xs
    else x :: dedupFirstAux (x :: seen) xs

/-- Insertion-ordered deduplication (`new Set` spread). -/
def dedupFirst (l : List String) : List String := dedupFirstAux [] l

/-- The derived `logLevels` menu
(`['ALL', ...new Set(logs.map(log => log.level?.toUpperCase()).filter(Boolean))]`). -/
def logLevels (logs : List LogRecord) : Option (List String) :=
  match mapLevelUpper logs with
  | none => none
  | some us => some ("ALL" :: dedupFirst (filterTruthyStr us))

/-! ## Connection lifecycle state machine

The mount effect's closure (`connectWebSocket`, the socket handlers, the
reconnect timer and the cleanup function) is embedded as an explicit
event-driven machine.  Sockets and timers are identified by the order of
their creation; a socket is *live* from `new WebSocket(...)` until
`close()` is requested on it or its close signal is observed; a timer is
*pending* from `setTimeout` until it fires or `clearTimeout` cancels it
(a canceled timer never fires). -/

/-- The whole component state the claims observe. -/
structure AppState where
  store : StoreState
  filterLevel : String
  isCleanedUp : Bool
  wsRef : Option Nat
  reconnectTimer : Option Nat
  pendingTimers : List Nat
  liveSockets : List Nat
  nextSocket : Nat
  nextTimer : Nat
  status : String
  isConnected : Bool

/-- Events dispatched by the host event loop. -/
inductive CEvent where
  | connectRequest
  | openSignal (s : Nat)
  | errorSignal (s : Nat)
  | closeSignal (s : Nat)
  | timerFire (t : Nat)
  | teardown
  | message (now : String) (frame : Option Json)
  | clearAction
  | setFilter (fl : String)

/-- `connectWebSocket`: close the existing socket if any, stop if the
cleanup already ran, otherwise open a fresh socket and point `wsRef` at
it. -/
def connectWebSocket (st : AppState) : AppState :=
  let st1 :=
    match st.wsRef with
    | some s => { st with liveSockets := st.liveSockets.erase s }
    | none => st
  if st1.isCleanedUp then st1
  else
    { st1 with wsRef := some st1.nextSocket
             , liveSockets := st1.nextSocket :: st1.liveSockets
             , nextSocket := st1.nextSocket + 1 }

/-- One event dispatch.  Signals carry the socket they fired on; a signal
for a socket that was never created is a no-op (no handler exists), and a
fire of a non-pending timer is a no-op (canceled timers never fire). -/
def step (st : AppState) : CEvent → AppState
  | .connectRequest => connectWebSocket st
  | .openSignal s =>
      if s < st.nextSocket then { st with isConnected := true, status := "Connected" }
      else st
  | .errorSignal s =>
      if s < st.nextSocket then { st with status := "Error" }
      else st
  | .closeSignal s =>
      if s < st.nextSocket then
        let st1 := { st with isConnected := false, status := "Disconnected"
                           , liveSockets := st.liveSockets.erase s }
        if st1.isCleanedUp then st1
        else
          { st1 with reconnectTimer := some st1.nextTimer
                   , pendingTimers := st1.nextTimer :: st1.pendingTimers
                   , nextTimer := st1.nextTimer + 1 }
      else st
  | .timerFire t =>
      if t ∈ st.pendingTimers then
        connectWebSocket { st with pendingTimers := st.pendingTimers.erase t
                                 , status := "Reconnecting..." }
      else st
  | .teardown =>
      let st1 := { st with isCleanedUp := true }
      let st2 :=
        match st1.reconnectTimer with
        | some t => { st1 with pendingTimers := st1.pendingTimers.erase t }
        | none => st1
      match st2.wsRef with
      | some s => { st2 with liveSockets := st2.liveSockets.erase s, wsRef := none }
      | none => st2
  | .message now frame => { st with store := processRawFrame now st.store frame }
  | .clearAction => { st with store := clearLogs st.store }
  | .setFilter fl => { st with filterLevel := fl }

/-- The component's initial state (note the source's literal initial
status string). -/
def initState : AppState :=
  { store := { logs := [], counter := 0 }
  , filterLevel := "ALL"
  , isCleanedUp := false
  , wsRef := none
  , reconnectTimer := none
  , pendingTimers := []
  , liveSockets := []
  , nextSocket := 0
  , nextTimer := 0
  , status := "Disconnecting..."
  , isConnected := false }

/-- Run a sequence of events. -/
def run (st : AppState) : List CEvent → AppState
  | [] => st
  | e :: es => run (step st e) es

/-! ## Auxiliary definitions used by the theorems -/

/-- A store in which the next appended record will be numbered 1 — or the
first record already is. -/
def FreshNumbering (st : StoreState) : Prop :=
  (st.logs = [] ∧ st.counter = 0) ∨ st.logs.head?.map LogRecord.lineNumber = some 1

/-- Holds when the frame is undecodable or its decoded value is not a
HISTORY frame (a `null` value never reaches the HISTORY branch). -/
def nonHistoryFrame : Option Json → Bool
  | none => true
  | some d => d.isNull || !(typeIs d "HISTORY")

/-- Holds when a HISTORY `data` payload is neither an array nor a string
(including an absent payload). -/
def badHistoryPayload : Option Json → Bool
  | some (.arr _) => false
  | some (.str _) => false
  | _ => true

/-- Every record level in the store is a JSON string. -/
def allStringLevels (logs : List LogRecord) : Prop :=
  ∀ r ∈ logs, ∃ s, r.level = Json.str s

/-- Every record level in the store is a non-empty JSON string. -/
def allNonemptyStringLevels (logs : List LogRecord) : Prop :=
  ∀ r ∈ logs, ∃ s, r.level = Json.str s ∧ s ≠ ""

/-- The display list as the specification words it: the subsequence of
records whose level, upper-cased, equals the filter token, upper-cased
(the whole store for `ALL`).  Stated for comparison with the source's
`filteredLogs`. -/
def specDisplayList (fl : String) (logs : List LogRecord) : List LogRecord :=
  if fl = "ALL" then logs
  else logs.filter (fun r =>
    match r.level with
    | .str s => decide (jsToUpper s = jsToUpper fl)
    | _ => false)

/-- The upper-cased string levels of the store, in store order. -/
def levelsUpper (logs : List LogRecord) : List String :=
  logs.filterMap (fun r =>
    match r.level with
    | .str s => some (jsToUpper s)
    | _ => none)

/-- The socket-ownership invariant: every live socket is the one `wsRef`
points at (so there is at most one). -/
def SockInv (st : AppState) : Prop :=
  st.liveSockets = [] ∨ ∃ s, st.wsRef = some s ∧ st.liveSockets = [s]

/-- The first frame of the spec's worked example. -/
def frameHistoryABC : Json :=
  .obj [("type", .str "HISTORY"), ("data", .str "a\nb\n\nc")]

/-- The second frame of the spec's worked example. -/
def frameBoom : Json :=
  .obj [("timestamp", .str "12:00:00"), ("level", .str "ERROR"), ("message", .str "boom")]

/-- The fourth frame of the spec's worked example. -/
def frameHi : Json :=
  .obj [("type", .str "log"), ("message", .str "hi")]

/-- A record whose level is the lower-case string `"info"` (producible by
a structured frame carrying `level: "info"`). -/
def recInfoLower : LogRecord :=
  { lineNumber := 1, timestamp := .str "t", level := .str "info"
  , message := .str "m", isStructured := .bool true, isHistory := false }

/-- A record whose level is the string `"ERROR"`. -/
def recError : LogRecord :=
  { lineNumber := 1, timestamp := .str "t", level := .str "ERROR"
  , message := .str "m", isStructured := .bool true, isHistory := false }

/-- A record whose level is the string `"ALL"` (producible by a structured
frame carrying `level: "ALL"`). -/
def recLevelAll : LogRecord :=
  { lineNumber := 1, timestamp := .str "t", level := .str "ALL"
  , message := .str "m", isStructured := .bool true, isHistory := false }

/-- A state with one open socket and one pending reconnect timer, reached
by connecting and then observing that socket's close signal. -/
def pendingTimerState : AppState :=
  run initState [CEvent.connectRequest, CEvent.closeSignal 0]

/-! ## Helper lemmas: the HISTORY batch -/

/-- Processing a batch of non-null history entries succeeds, produces one
record per entry, numbers them consecutively from the incoming counter
plus one, and marks them all as history. -/
theorem processHistory_complete (now : String) :
    ∀ (es : List Json) (c : Nat), es.all (fun e => !(Json.isNull e)) = true →
    ∃ rs, processHistory now c es = (some rs, c + es.length) ∧
      rs.length = es.length ∧
      rs.map LogRecord.lineNumber = List.range' (c + 1) es.length ∧
      ∀ r ∈ rs, r.isHistory = true := by
  intro es
  induction es with
  | nil => exact fun c _ => ⟨[], rfl, rfl, rfl, by simp⟩
  | cons e es ih =>
    intro c hall
    rw [List.all_cons, Bool.and_eq_true] at hall
    obtain ⟨rs, h1, h2, h3, h4⟩ := ih (c + 1) hall.2
    have hstep : processHistory now c (e :: es) =
        (some (mkHistoryRecord now (c + 1) e :: rs), c + 1 + es.length) := by
      cases e with
      | null => simp [Json.isNull] at hall
      | bool b => simp [processHistory, h1]
      | num n => simp [processHistory, h1]
      | str s => simp [processHistory, h1]
      | arr xs => simp [processHistory, h1]
      | obj fs => simp [processHistory, h1]
    refine ⟨mkHistoryRecord now (c + 1) e :: rs, ?_, by simp [h2], ?_, ?_⟩
    · rw [hstep]
      have : c + 1 + es.length = c + (es.length + 1) := by omega
      rw [this]
      rfl
    · rw [List.map_cons, h3, List.length_cons, List.range'_succ]
      rfl
    · intro r hr
      rcases List.mem_cons.mp hr with h | h
      · rw [h]; rfl
      · exact h4 r h

/-- The entry list of a HISTORY frame whose payload is neither an array
nor a string is empty. -/
theorem historyEntries_bad (now : String) (d : Option Json)
    (hbad : badHistoryPayload d = true) : historyEntries now d = [] := by
  cases d with
  | none => rfl
  | some v =>
    cases v with
    | null => rfl
    | bool b => rfl
    | num n => rfl
    | str s => simp [badHistoryPayload] at hbad
    | arr xs => simp [badHistoryPayload] at hbad
    | obj fs => rfl

/-- A decoded frame carrying a `type` string is not the `null` literal. -/
theorem isNull_false_of_typeIs {data : Json} {s : String}
    (hT : typeIs data s = true) : data.isNull = false := by
  cases data with
  | null => simp [typeIs, jsGet] at hT
  | bool b => rfl
  | num n => rfl
  | str t => rfl
  | arr xs => rfl
  | obj fs => rfl

/-- A decoded HISTORY frame enters the HISTORY branch. -/
theorem processFrame_history (now : String) (st : StoreState) (data : Json)
    (hT : typeIs data "HISTORY" = true) :
    processFrame now st data =
      match processHistory now st.counter (historyEntries now (jsGet data "data")) with
      | (some rs, c) => { logs := rs, counter := c }
      | (none, c) => { logs := st.logs, counter := c } := by
  rw [processFrame, isNull_false_of_typeIs hT, hT]
  rfl

/-! ## Claim C1 -/

/-- C1: from an empty store with counter 0, processing the HISTORY frame
`{"type":"HISTORY","data":"a\nb\n\nc"}`, then the structured frame
`{"timestamp":"12:00:00","level":"ERROR","message":"boom"}`, then the
clear() action, then `{"type":"log","message":"hi"}` leaves exactly one
record in the store, with lineNumber 1, level "INFO", message "hi" and
isHistory false — at whatever wall-clock strings the three frames are
processed. -/
theorem example_sequence_final_store (n1 n2 n3 : String) :
    (processFrame n3
      (clearLogs (processFrame n2 (processFrame n1 ⟨[], 0⟩ frameHistoryABC) frameBoom))
      frameHi).logs.map (fun r => (r.lineNumber, r.level, r.message, r.isHistory)) =
    [(1, Json.str "INFO", Json.str "hi", false)] := by
  rfl

/-! ## Claim C2 -/

/-- C2: for every HISTORY frame whose payload yields entries that are all
well formed (non-null), processing the frame replaces the store with
exactly one record per entry, numbered `k+1 … k+N` where `k` is the
counter before the frame; the counter advances to `k + N` (it is not
reset), every stored record is a history record, and the result is
independent of the previous store contents. -/
theorem history_batch_numbering (now : String) (st : StoreState) (data : Json)
    (hT : typeIs data "HISTORY" = true)
    (hnn : (historyEntries now (jsGet data "data")).all (fun e => !(Json.isNull e)) = true) :
    (processFrame now st data).logs.length
        = (historyEntries now (jsGet data "data")).length ∧
    (processFrame now st data).logs.map LogRecord.lineNumber
        = List.range' (st.counter + 1) (historyEntries now (jsGet data "data")).length ∧
    (processFrame now st data).counter
        = st.counter + (historyEntries now (jsGet data "data")).length ∧
    (∀ r ∈ (processFrame now st data).logs, r.isHistory = true) ∧
    processFrame now st data = processFrame now { logs := [], counter := st.counter } data := by
  obtain ⟨rs, h1, h2, h3, h4⟩ :=
    processHistory_complete now (historyEntries now (jsGet data "data")) st.counter hnn
  have heq : processFrame now st data =
      { logs := rs, counter := st.counter + (historyEntries now (jsGet data "data")).length } := by
    rw [processFrame_history now st data hT, h1]
  have heq' : processFrame now { logs := [], counter := st.counter } data =
      { logs := rs, counter := st.counter + (historyEntries now (jsGet data "data")).length } := by
    rw [processFrame_history now _ data hT]
    simp only []
    rw [h1]
  rw [heq, heq']
  exact ⟨h2, h3, rfl, h4, rfl⟩

/-- Witness for C2 at the spec's own example frame. -/
theorem history_batch_numbering_witness :
    (typeIs frameHistoryABC "HISTORY" = true) ∧
    ((historyEntries "12:00:00" (jsGet frameHistoryABC "data")).all
        (fun e => !(Json.isNull e)) = true) ∧
    ((processFrame "12:00:00" ⟨[recError], 5⟩ frameHistoryABC).logs.map LogRecord.lineNumber
        = List.range' 6 (historyEntries "12:00:00" (jsGet frameHistoryABC "data")).length ∧
      (processFrame "12:00:00" ⟨[recError], 5⟩ frameHistoryABC).counter
        = 5 + (historyEntries "12:00:00" (jsGet frameHistoryABC "data")).length) :=
  ⟨rfl, rfl,
    (history_batch_numbering "12:00:00" ⟨[recError], 5⟩ frameHistoryABC rfl rfl).2.1,
    (history_batch_numbering "12:00:00" ⟨[recError], 5⟩ frameHistoryABC rfl rfl).2.2.1⟩

/-! ## Claim C10 -/

/-- C10: a decodable HISTORY frame whose `data` payload is neither an
array nor a string (including an absent payload) replaces the store with
the empty list and leaves the counter unchanged. -/
theorem history_bad_payload_empties (now : String) (st : StoreState) (data : Json)
    (hT : typeIs data "HISTORY" = true)
    (hbad : badHistoryPayload (jsGet data "data") = true) :
    processFrame now st data = { logs := [], counter := st.counter } := by
  rw [processFrame_history now st data hT, historyEntries_bad now _ hbad]
  rfl

/-- Witness for C10: a HISTORY frame with no `data` field wipes a
non-empty store while keeping the counter at 7. -/
theorem history_bad_payload_empties_witness :
    (typeIs (Json.obj [("type", Json.str "HISTORY")]) "HISTORY" = true) ∧
    (badHistoryPayload (jsGet (Json.obj [("type", Json.str "HISTORY")]) "data") = true) ∧
    processFrame "t" ⟨[recError], 7⟩ (Json.obj [("type", Json.str "HISTORY")])
      = { logs := [], counter := 7 } :=
  ⟨rfl, rfl, history_bad_payload_empties "t" ⟨[recError], 7⟩ _ rfl rfl⟩

/-! ## Claim C3 -/

/-- A non-history decoded frame either leaves the store unchanged or
appends exactly one record, numbered with the incremented counter. -/
theorem processFrame_nonHistory_shape (now : String) (st : StoreState) (data : Json)
    (hT : nonHistoryFrame (some data) = true) :
    processFrame now st data = st ∨
    ∃ r, r.lineNumber = st.counter + 1 ∧
      processFrame now st data = { logs := st.logs ++ [r], counter := st.counter + 1 } := by
  rw [nonHistoryFrame, Bool.or_eq_true, Bool.not_eq_true'] at hT
  by_cases hn : data.isNull = true
  · left
    rw [processFrame, hn]
    rfl
  · rw [Bool.not_eq_true] at hn
    have hh : typeIs data "HISTORY" = false := by
      rcases hT with h | h
      · exact absurd h (by rw [hn]; exact Bool.false_ne_true)
      · exact h
    rw [processFrame, hn, hh]
    simp only [Bool.false_eq_true, if_false]
    split
    · exact Or.inr ⟨_, rfl, rfl⟩
    · split
      · exact Or.inr ⟨_, rfl, rfl⟩
      · split
        · exact Or.inr ⟨_, rfl, rfl⟩
        · exact Or.inl rfl

/-- Processing one non-history raw frame preserves `FreshNumbering`. -/
theorem freshNumbering_step (now : String) (st : StoreState) (f : Option Json)
    (hf : nonHistoryFrame f = true) (h : FreshNumbering st) :
    FreshNumbering (processRawFrame now st f) := by
  cases f with
  | none => exact h
  | some data =>
    have hpf : processRawFrame now st (some data) = processFrame now st data := rfl
    rcases processFrame_nonHistory_shape now st data hf with heq | ⟨r, hr, heq⟩
    · rw [hpf, heq]; exact h
    · rw [hpf, heq]
      rcases h with ⟨hl, hc⟩ | hh
      · right
        show ((st.logs ++ [r]).head?).map LogRecord.lineNumber = some 1
        rw [hc] at hr
        rw [hl]
        simp [hr]
      · right
        show ((st.logs ++ [r]).head?).map LogRecord.lineNumber = some 1
        cases hl : st.logs with
        | nil =>
          rw [hl] at hh
          simp at hh
        | cons a l =>
          rw [hl] at hh
          simpa using hh

/-- Processing a sequence of non-history raw frames preserves
`FreshNumbering`. -/
theorem freshNumbering_frames (st : StoreState) (fs : List (String × Option Json))
    (hf : ∀ p ∈ fs, nonHistoryFrame p.2 = true) (h : FreshNumbering st) :
    FreshNumbering (processFrames st fs) := by
  induction fs generalizing st with
  | nil => exact h
  | cons p ps ih =>
    obtain ⟨now, f⟩ := p
    exact ih (processRawFrame now st f)
      (fun q hq => hf q (List.mem_cons_of_mem _ hq))
      (freshNumbering_step now st f (hf ⟨now, f⟩ (List.mem_cons_self _ _)) h)

/-- C3: for every store and counter state, clear() empties the store and
resets the counter, and after processing any subsequent sequence of
non-history frames the first stored record — as soon as one exists —
carries lineNumber 1. -/
theorem clear_restarts_numbering (st : StoreState) (fs : List (String × Option Json))
    (hf : ∀ p ∈ fs, nonHistoryFrame p.2 = true) :
    (clearLogs st).logs = [] ∧ (clearLogs st).counter = 0 ∧
    ((processFrames (clearLogs st) fs).logs = [] ∨
      (processFrames (clearLogs st) fs).logs.head?.map LogRecord.lineNumber = some 1) := by
  refine ⟨rfl, rfl, ?_⟩
  rcases freshNumbering_frames (clearLogs st) fs hf (Or.inl ⟨rfl, rfl⟩) with ⟨hl, _⟩ | hh
  · exact Or.inl hl
  · exact Or.inr hh

/-- Witness for C3: clearing a populated store and processing the frame
`{"type":"log","message":"hi"}` numbers the first record 1. -/
theorem clear_restarts_numbering_witness :
    (∀ p ∈ [(("t" : String), some frameHi)], nonHistoryFrame p.2 = true) ∧
    ((clearLogs ⟨[recError], 7⟩).logs = [] ∧
      ((processFrames (clearLogs ⟨[recError], 7⟩) [("t", some frameHi)]).logs = [] ∨
        (processFrames (clearLogs ⟨[recError], 7⟩)
            [("t", some frameHi)]).logs.head?.map LogRecord.lineNumber = some 1)) :=
  ⟨by decide,
    (clear_restarts_numbering ⟨[recError], 7⟩ [("t", some frameHi)] (by decide)).1,
    (clear_restarts_numbering ⟨[recError], 7⟩ [("t", some frameHi)] (by decide)).2.2⟩

/-! ## Claim C7 -/

/-- Upper-casing a non-empty string yields a non-empty string. -/
theorem jsToUpper_ne_empty {s : String} (h : s ≠ "") : jsToUpper s ≠ "" := by
  intro hc
  apply h
  have hdata : s.data.map Char.toUpper = [] := congrArg String.data hc
  have hd : s.data = [] := List.map_eq_nil_iff.mp hdata
  cases s with
  | mk d => exact congrArg String.mk hd

/-- On a store of string-levelled records, `filterByLevel` succeeds and
keeps exactly the records whose upper-cased level equals the token
verbatim. -/
theorem filterByLevel_str (fl : String) :
    ∀ logs, allStringLevels logs →
    filterByLevel fl logs = some (logs.filter (fun r =>
      match r.level with
      | .str s => decide (jsToUpper s = fl)
      | _ => false)) := by
  intro logs
  induction logs with
  | nil => intro _; rfl
  | cons r rs ih =>
    intro h
    obtain ⟨s, hs⟩ := h r (List.mem_cons_self _ _)
    have hrs := ih (fun x hx => h x (List.mem_cons_of_mem _ hx))
    rw [filterByLevel, hs, levelUpper, hrs]
    by_cases heq : jsToUpper s = fl
    · simp [List.filter_cons, hs, heq]
    · simp [List.filter_cons, hs, heq]

/-- C7 counterexample: for the (reachable) record level `"info"` and the
filter token `"info"`, the code displays nothing although both upper-case
to `INFO`; the claim as stated predicts the record is displayed. -/
theorem display_list_case_cex :
    filteredLogs "info" [recInfoLower] ≠ some (specDisplayList "info" [recInfoLower]) := by
  have h1 : filteredLogs "info" [recInfoLower] = some [] := rfl
  have h2 : specDisplayList "info" [recInfoLower] = [recInfoLower] := rfl
  rw [h1, h2]
  simp

/-- C7 (amended): for a store of string-levelled records and an
upper-case-invariant filter token (`X.toUpperCase() == X`, which holds for
every token the menu offers), the displayed list is exactly the
subsequence of records whose level, upper-cased, equals the token
upper-cased; for `ALL` the whole store is displayed (the latter needs no
hypotheses). -/
theorem display_list_matches_filter (fl : String) (logs : List LogRecord)
    (hs : allStringLevels logs) (hfl : jsToUpper fl = fl) :
    filteredLogs fl logs = some (specDisplayList fl logs) ∧
    filteredLogs "ALL" logs = some logs := by
  refine ⟨?_, rfl⟩
  rw [filteredLogs, specDisplayList]
  by_cases hall : fl = "ALL"
  · simp [hall]
  · simp only [hall, if_false]
    rw [filterByLevel_str fl logs hs]
    congr 1
    apply List.filter_congr
    intro r hr
    obtain ⟨s, hsr⟩ := hs r hr
    rw [hsr, hfl]

/-- Witness for C7 at a one-record store with level `"ERROR"` and the
token `"ERROR"`. -/
theorem display_list_matches_filter_witness :
    allStringLevels [recError] ∧ jsToUpper "ERROR" = "ERROR" ∧
    (filteredLogs "ERROR" [recError] = some (specDisplayList "ERROR" [recError]) ∧
      filteredLogs "ALL" [recError] = some [recError]) :=
  ⟨fun r hr => ⟨"ERROR", by rw [List.mem_singleton.mp hr]; rfl⟩, rfl,
    display_list_matches_filter "ERROR" [recError]
      (fun r hr => ⟨"ERROR", by rw [List.mem_singleton.mp hr]; rfl⟩) rfl⟩

/-! ## Claim C8 -/

/-- Membership in the deduplicated list, relative to the seen set. -/
theorem mem_dedupFirstAux (x : String) :
    ∀ (l seen : List String), x ∈ dedupFirstAux seen l ↔ x ∈ l ∧ x ∉ seen := by
  intro l
  induction l with
  | nil => intro seen; simp [dedupFirstAux]
  | cons y ys ih =>
    intro seen
    by_cases hy : y ∈ seen
    · rw [dedupFirstAux, if_pos hy, ih]
      constructor
      · rintro ⟨h1, h2⟩
        exact ⟨List.mem_cons_of_mem _ h1, h2⟩
      · rintro ⟨h1, h2⟩
        rcases List.mem_cons.mp h1 with h | h
        · exact absurd (h ▸ hy) h2
        · exact ⟨h, h2⟩
    · rw [dedupFirstAux, if_neg hy]
      constructor
      · intro hmem
        rcases List.mem_cons.mp hmem with h | h
        · exact ⟨h ▸ List.mem_cons_self _ _, h ▸ hy⟩
        · obtain ⟨h1, h2⟩ := (ih (y :: seen)).mp h
          refine ⟨List.mem_cons_of_mem _ h1, fun hc => h2 (List.mem_cons_of_mem _ hc)⟩
      · rintro ⟨h1, h2⟩
        rcases List.mem_cons.mp h1 with h | h
        · exact h ▸ List.mem_cons_self _ _
        · by_cases hxy : x = y
          · exact hxy ▸ List.mem_cons_self _ _
          · exact List.mem_cons_of_mem _ ((ih (y :: seen)).mpr
              ⟨h, fun hc => (List.mem_cons.mp hc).elim hxy h2⟩)

/-- The deduplicated list has no duplicates. -/
theorem nodup_dedupFirstAux : ∀ (l seen : List String), (dedupFirstAux seen l).Nodup := by
  intro l
  induction l with
  | nil => intro seen; exact List.nodup_nil
  | cons y ys ih =>
    intro seen
    by_cases hy : y ∈ seen
    · rw [dedupFirstAux, if_pos hy]
      exact ih seen
    · rw [dedupFirstAux, if_neg hy]
      refine List.nodup_cons.mpr ⟨?_, ih (y :: seen)⟩
      intro hc
      exact ((mem_dedupFirstAux y ys (y :: seen)).mp hc).2 (List.mem_cons_self _ _)

/-- On a store of non-empty string levels, the level mapping succeeds and
the truthiness filter keeps every upper-cased level. -/
theorem mapLevelUpper_nonempty :
    ∀ logs, allNonemptyStringLevels logs →
    ∃ us, mapLevelUpper logs = some us ∧ filterTruthyStr us = levelsUpper logs := by
  intro logs
  induction logs with
  | nil => exact fun _ => ⟨[], rfl, rfl⟩
  | cons r rs ih =>
    intro h
    obtain ⟨s, hs, hne⟩ := h r (List.mem_cons_self _ _)
    obtain ⟨us, hus, hft⟩ := ih (fun x hx => h x (List.mem_cons_of_mem _ hx))
    refine ⟨some (jsToUpper s) :: us, ?_, ?_⟩
    · rw [mapLevelUpper, hs, levelUpper, hus]
    · rw [filterTruthyStr, List.filterMap_cons]
      simp only [jsToUpper_ne_empty hne, if_neg (jsToUpper_ne_empty hne)]
      rw [levelsUpper, List.filterMap_cons, hs]
      have : filterTruthyStr us = levelsUpper rs := hft
      rw [filterTruthyStr] at this
      rw [this]
      rfl

/-- C8 counterexample: a store holding one record whose level is the
string `"ALL"` (reachable via a structured frame with `level: "ALL"`)
makes the menu `["ALL", "ALL"]`, which contains a duplicate. -/
theorem available_levels_dup_cex :
    logLevels [recLevelAll] = some ["ALL", "ALL"] ∧
    ¬ (["ALL", "ALL"] : List String).Nodup :=
  ⟨rfl, by decide⟩

/-- C8 (amended): for a store of non-empty string levels, the menu equals
`"ALL"` followed by the distinct upper-cased record levels in first-seen
order; its head is always `"ALL"` and the part after the leading `"ALL"`
has no duplicates — the whole list is duplicate-free provided no record's
level upper-cases to `"ALL"` itself. -/
theorem available_levels_shape (logs : List LogRecord)
    (h : allNonemptyStringLevels logs) :
    logLevels logs = some ("ALL" :: dedupFirst (levelsUpper logs)) ∧
    (dedupFirst (levelsUpper logs)).Nodup ∧
    ("ALL" ∉ levelsUpper logs → ("ALL" :: dedupFirst (levelsUpper logs)).Nodup) := by
  obtain ⟨us, hus, hft⟩ := mapLevelUpper_nonempty logs h
  refine ⟨?_, nodup_dedupFirstAux _ _, ?_⟩
  · rw [logLevels, hus]
    show some ("ALL" :: dedupFirst (filterTruthyStr us))
        = some ("ALL" :: dedupFirst (levelsUpper logs))
    rw [hft]
  · intro hni
    refine List.nodup_cons.mpr ⟨?_, nodup_dedupFirstAux _ _⟩
    intro hc
    exact hni ((mem_dedupFirstAux "ALL" (levelsUpper logs) []).mp hc).1

/-- Witness for C8 at a one-record store with level `"ERROR"`. -/
theorem available_levels_shape_witness :
    allNonemptyStringLevels [recError] ∧
    (logLevels [recError] = some ("ALL" :: dedupFirst (levelsUpper [recError])) ∧
      (dedupFirst (levelsUpper [recError])).Nodup ∧
      ("ALL" ∉ levelsUpper [recError] →
        ("ALL" :: dedupFirst (levelsUpper [recError])).Nodup)) :=
  ⟨fun r hr => ⟨"ERROR", by rw [List.mem_singleton.mp hr]; exact ⟨rfl, by decide⟩⟩,
    available_levels_shape [recError]
      (fun r hr => ⟨"ERROR", by rw [List.mem_singleton.mp hr]; exact ⟨rfl, by decide⟩⟩)⟩

/-! ## Helper lemmas: connection lifecycle -/

/-- The exact effect of the cleanup function: set the flag, cancel the
timer referenced by `reconnectTimeoutRef` (the reference itself keeps its
value), close the referenced socket and null the socket reference. -/
theorem teardown_eq (st : AppState) :
    step st CEvent.teardown =
      { st with isCleanedUp := true
              , pendingTimers :=
                  match st.reconnectTimer with
                  | some t => st.pendingTimers.erase t
                  | none => st.pendingTimers
              , wsRef := none
              , liveSockets :=
                  match st.wsRef with
                  | some s => st.liveSockets.erase s
                  | none => st.liveSockets } := by
  obtain ⟨store, fl, ic, ws, rt, pt, ls, ns, nt, status, conn⟩ := st
  cases ws <;> cases rt <;> rfl

/-- `connectWebSocket` preserves the socket-ownership invariant. -/
theorem connectWebSocket_sockInv {st : AppState} (h : SockInv st) :
    SockInv (connectWebSocket st) := by
  rcases h with hnil | ⟨s, hws, hls⟩
  · cases hw : st.wsRef with
    | none =>
      by_cases hic : st.isCleanedUp
      · simp [connectWebSocket, hw, hic, SockInv, hnil]
      · simp [connectWebSocket, hw, hic, SockInv, hnil]
    | some s0 =>
      by_cases hic : st.isCleanedUp
      · simp [connectWebSocket, hw, hic, SockInv, hnil]
      · simp [connectWebSocket, hw, hic, SockInv, hnil]
  · by_cases hic : st.isCleanedUp
    · simp [connectWebSocket, hws, hic, SockInv, hls]
    · simp [connectWebSocket, hws, hic, SockInv, hls]

/-- Every event dispatch preserves the socket-ownership invariant. -/
theorem step_sockInv {st : AppState} (e : CEvent) (h : SockInv st) :
    SockInv (step st e) := by
  cases e with
  | connectRequest => exact connectWebSocket_sockInv h
  | openSignal s =>
    by_cases hlt : s < st.nextSocket
    · simp only [step, hlt, if_pos]
      exact h
    · simp only [step, hlt, if_neg, not_false_iff]
      exact h
  | errorSignal s =>
    by_cases hlt : s < st.nextSocket
    · simp only [step, hlt, if_pos]
      exact h
    · simp only [step, hlt, if_neg, not_false_iff]
      exact h
  | closeSignal s =>
    by_cases hlt : s < st.nextSocket
    · by_cases hic : st.isCleanedUp
      all_goals rcases h with hnil | ⟨w, hws, hls⟩
      all_goals simp only [step, hlt, if_pos]
      · simp [hic, SockInv, hnil]
      · by_cases hws' : w = s <;>
          simp [hic, SockInv, hws, hls, List.erase_cons, hws']
      · simp [hic, SockInv, hnil]
      · by_cases hws' : w = s <;>
          simp [hic, SockInv, hws, hls, List.erase_cons, hws']
    · simp only [step, hlt, if_neg, not_false_iff]
      exact h
  | timerFire t =>
    by_cases ht : t ∈ st.pendingTimers
    · simp only [step, ht, if_pos]
      exact connectWebSocket_sockInv (by
        rcases h with hnil | ⟨w, hws, hls⟩
        · exact Or.inl hnil
        · exact Or.inr ⟨w, hws, hls⟩)
    · simp only [step, ht, if_neg, not_false_iff]
      exact h
  | teardown =>
    rw [teardown_eq]
    rcases h with hnil | ⟨w, hws, hls⟩
    · cases hw : st.wsRef <;> simp [SockInv, hw, hnil]
    · simp [SockInv, hws, hls]
  | message now frame => exact h
  | clearAction => exact h
  | setFilter fl => exact h

/-- The socket-ownership invariant holds in every reachable state. -/
theorem run_sockInv (evs : List CEvent) : SockInv (run initState evs) := by
  have hstep : ∀ (st : AppState) (l : List CEvent), SockInv st → SockInv (run st l) := by
    intro st l
    induction l generalizing st with
    | nil => exact id
    | cons e es ih => exact fun h => ih (step st e) (step_sockInv e h)
  exact hstep initState evs (Or.inl rfl)

/-! ## Claim C4 -/

/-- C4: in every reachable state at most one transport is open — each
connect request closes the existing socket before opening its own, so no
event sequence (including two rapid consecutive connect requests) leaves
two simultaneously open transports. -/
theorem at_most_one_open_socket (evs : List CEvent) :
    (run initState evs).liveSockets.length ≤ 1 := by
  rcases run_sockInv evs with hnil | ⟨s, _, hls⟩
  · rw [hnil]
    exact Nat.zero_le 1
  · rw [hls]
    exact Nat.le_refl 1

/-! ## Claim C5 -/

/-- `connectWebSocket` after teardown opens nothing and keeps the flag. -/
theorem connectWebSocket_frozen {st : AppState} (h : st.isCleanedUp = true) :
    (connectWebSocket st).isCleanedUp = true ∧
    (connectWebSocket st).nextSocket = st.nextSocket := by
  cases hw : st.wsRef <;> simp [connectWebSocket, hw, h]

/-- After teardown, no event dispatch unsets the flag or creates a
socket. -/
theorem step_frozen {st : AppState} (e : CEvent) (h : st.isCleanedUp = true) :
    (step st e).isCleanedUp = true ∧ (step st e).nextSocket = st.nextSocket := by
  cases e with
  | connectRequest => exact connectWebSocket_frozen h
  | openSignal s =>
    by_cases hlt : s < st.nextSocket <;> simp [step, hlt, h]
  | errorSignal s =>
    by_cases hlt : s < st.nextSocket <;> simp [step, hlt, h]
  | closeSignal s =>
    by_cases hlt : s < st.nextSocket <;> simp [step, hlt, h]
  | timerFire t =>
    by_cases ht : t ∈ st.pendingTimers
    · simp only [step, ht, if_pos]
      exact connectWebSocket_frozen h
    · simp only [step, ht, if_neg, not_false_iff]
      exact ⟨h, trivial⟩
  | teardown => rw [teardown_eq]; exact ⟨rfl, rfl⟩
  | message now frame => exact ⟨h, rfl⟩
  | clearAction => exact ⟨h, rfl⟩
  | setFilter fl => exact ⟨h, rfl⟩

/-- After teardown, no event sequence creates a socket. -/
theorem run_frozen {st : AppState} (evs : List CEvent) (h : st.isCleanedUp = true) :
    (run st evs).nextSocket = st.nextSocket ∧ (run st evs).isCleanedUp = true := by
  induction evs generalizing st with
  | nil => exact ⟨rfl, h⟩
  | cons e es ih =>
    obtain ⟨h1, h2⟩ := step_frozen e h
    obtain ⟨ih1, ih2⟩ := ih h1
    exact ⟨ih1.trans h2, ih2⟩

/-- Running a concatenation runs the pieces in order. -/
theorem run_append (st : AppState) (l1 l2 : List CEvent) :
    run st (l1 ++ l2) = run (run st l1) l2 := by
  induction l1 generalizing st with
  | nil => rfl
  | cons e es ih => exact ih (step st e)

/-- C5: once teardown occurs, no subsequent connect attempt ever occurs
in any execution — no later event sequence creates a socket (the
teardown flag suppresses the timer callback's connect request and any
close-signal-driven rescheduling) — and the teardown step itself cancels
the referenced pending reconnect timer. -/
theorem teardown_suppresses_reconnect (evs1 evs2 : List CEvent) :
    (run (run initState (evs1 ++ [CEvent.teardown])) evs2).nextSocket
      = (run initState (evs1 ++ [CEvent.teardown])).nextSocket ∧
    (∀ st : AppState, (step st CEvent.teardown).pendingTimers =
        match st.reconnectTimer with
        | some t => st.pendingTimers.erase t
        | none => st.pendingTimers) := by
  constructor
  · have hc : (run initState (evs1 ++ [CEvent.teardown])).isCleanedUp = true := by
      rw [run_append]
      show (step (run initState evs1) CEvent.teardown).isCleanedUp = true
      rw [teardown_eq]
    exact (run_frozen evs2 hc).1
  · intro st
    rw [teardown_eq]

/-! ## Claim C6 -/

/-- C6 counterexample: in a state holding a pending reconnect timer, the
teardown leaves the timer reference still set (the source never writes
`reconnectTimeoutRef.current = null`), contradicting "sets both the
socket reference and the timer reference to null". -/
theorem teardown_timer_ref_cex :
    pendingTimerState.reconnectTimer = some 0 ∧
    (step pendingTimerState CEvent.teardown).reconnectTimer = some 0 ∧
    (step pendingTimerState CEvent.teardown).reconnectTimer ≠ none :=
  ⟨rfl, rfl, by decide⟩

/-- C6 (amended): teardown cancels the referenced pending reconnect
timer, closes the referenced socket, nulls the socket reference and sets
the teardown flag; the timer reference keeps its previous value, and no
other state is modified. -/
theorem teardown_effect (st : AppState) :
    step st CEvent.teardown =
      { st with isCleanedUp := true
              , pendingTimers :=
                  match st.reconnectTimer with
                  | some t => st.pendingTimers.erase t
                  | none => st.pendingTimers
              , wsRef := none
              , liveSockets :=
                  match st.wsRef with
                  | some s => st.liveSockets.erase s
                  | none => st.liveSockets } :=
  teardown_eq st

/-! ## Claim C9 -/

/-- C9: a transport error signal sets the status string to "Error" and
changes nothing else — it neither closes the connection nor schedules a
reconnect timer nor touches the store — while it is the close signal
that sets "Disconnected" and schedules the reconnect timer. -/
theorem error_signal_status_only (st : AppState) (s : Nat)
    (hs : s < st.nextSocket) (hc : st.isCleanedUp = false) :
    step st (CEvent.errorSignal s) = { st with status := "Error" } ∧
    step st (CEvent.closeSignal s) =
      { st with isConnected := false
              , status := "Disconnected"
              , liveSockets := st.liveSockets.erase s
              , reconnectTimer := some st.nextTimer
              , pendingTimers := st.nextTimer :: st.pendingTimers
              , nextTimer := st.nextTimer + 1 } := by
  constructor
  · simp [step, hs]
  · simp [step, hs, hc]

/-- Witness for C9 in the state reached by the initial connect request. -/
theorem error_signal_status_only_witness :
    (0 < (run initState [CEvent.connectRequest]).nextSocket) ∧
    ((run initState [CEvent.connectRequest]).isCleanedUp = false) ∧
    (step (run initState [CEvent.connectRequest]) (CEvent.errorSignal 0) =
        { run initState [CEvent.connectRequest] with status := "Error" } ∧
      step (run initState [CEvent.connectRequest]) (CEvent.closeSignal 0) =
        { run initState [CEvent.connectRequest] with
            isConnected := false
          , status := "Disconnected"
          , liveSockets := (run initState [CEvent.connectRequest]).liveSockets.erase 0
          , reconnectTimer := some (run initState [CEvent.connectRequest]).nextTimer
          , pendingTimers := (run initState [CEvent.connectRequest]).nextTimer ::
              (run initState [CEvent.connectRequest]).pendingTimers
          , nextTimer := (run initState [CEvent.connectRequest]).nextTimer + 1 }) :=
  ⟨by decide, rfl,
    error_signal_status_only (run initState [CEvent.connectRequest]) 0 (by decide) rfl⟩

end LogViewer
